import Mathlib

/-!
# Verification of the cv-orchestrator normalization / validation core

Shallow embedding of the key-casing converter, taxonomy normalizers,
Stage-0 schema validators and the orchestration coordinator of the
`cv-orchestrator` repository, together with proofs of the specification
claims about them.

Modelling conventions:
* Python strings are Lean `String`s; character-level algorithms work on
  `List Char` (`String.data`) and are lifted back with `String.mk`.
* Python `str.upper()` on a single character is modelled for the ASCII
  range (`pyUpperChar`), matching CPython on ASCII input.
* Python dicts are association lists in insertion order; dict keys that
  are not strings are modelled by the opaque constructor `JKey.nonstr`.
* `date` values are modelled by their ordinal as an `Int`; only their
  linear order is relevant to the code under verification.
* Fallible code returns `Except`/`Option`.
-/

namespace CvOrch

/-! ## JSON values (Python dict / list / primitives) -/

/-- A Python dict key: either a string or some non-string key
(modelled opaquely by an integer, e.g. an `int` key). -/
inductive JKey where
  | str (s : String)
  | nonstr (n : Int)
deriving DecidableEq, Repr

/-- A JSON-like Python value: dict / list / primitive. -/
inductive Json where
  | null
  | bool (b : Bool)
  | num (n : Int)
  | str (s : String)
  | arr (elems : List Json)
  | obj (members : List (JKey × Json))
deriving Repr

/-- `isinstance(v, dict)`. -/
def Json.isObj : Json → Bool
  | .obj _ => true
  | _ => false

/-! ## `snake_to_camel` (functions/utils/json_naming_converter.py) -/

/-- The separator test `c == '_'`. -/
def isU (c : Char) : Bool := c = '_'

/-- Python `str.upper()` restricted to one ASCII character
(`p[:1].upper()` in the source, for ASCII input). -/
def pyUpperChar (c : Char) : Char :=
  if 'a' ≤ c ∧ c ≤ 'z' then Char.ofNat (c.toNat - 32) else c

/-- `p[:1].upper() + p[1:]` on a part. -/
def capitalizePart : List Char → List Char
  | [] => []
  | c :: cs => pyUpperChar c :: cs

/-- Python `core.split("_")`: split on `'_'`, keeping empty pieces. -/
def splitU : List Char → List (List Char)
  | [] => [[]]
  | c :: cs =>
    match splitU cs with
    | [] => [[]]
    | p :: ps => if c = '_' then [] :: p :: ps else (c :: p) :: ps

/-- Python `s.strip("_")`: drop leading and trailing underscore runs. -/
def stripU (s : List Char) : List Char :=
  ((s.dropWhile isU).reverse.dropWhile isU).reverse

/-- `snake_to_camel` from functions/utils/json_naming_converter.py,
on the character list of the string. -/
def snake_to_camelL (s : List Char) : List Char :=
  if '_' ∈ s then
    -- leading = len(s) - len(s.lstrip("_")); trailing likewise
    let leading := (s.takeWhile isU).length
    let trailing := (s.reverse.takeWhile isU).length
    let core := stripU s
    if core = [] then s          -- e.g. "___"
    else
      match (splitU core).filter (fun p => p ≠ []) with
      | [] => s
      | first :: rest =>
        List.replicate leading '_'
          ++ (first ++ (rest.map capitalizePart).flatten)
          ++ List.replicate trailing '_'
  else s                          -- no '_' in s

/-- `snake_to_camel` lifted to `String`. -/
def snake_to_camel (s : String) : String := ⟨snake_to_camelL s.data⟩

/-- `toCamel` as worded by the specification (claim C2): unchanged when
there is no separator or the string is only separators; otherwise the
leading/trailing separator runs are preserved verbatim around the
camelized core built from the non-empty parts of the core. -/
def toCamel_specL (s : List Char) : List Char :=
  if '_' ∉ s ∨ s.all isU then s
  else
    let leadingRun := s.takeWhile isU
    let trailingRun := (s.reverse.takeWhile isU).reverse
    let core := stripU s
    match (splitU core).filter (fun p => p ≠ []) with
    | [] => s  -- unreachable: the core is non-empty and not all separators
    | first :: rest =>
      leadingRun ++ (first ++ (rest.map capitalizePart).flatten) ++ trailingRun

/-! ## `convert_keys_snake_to_camel` (functions/utils/json_naming_converter.py)

Python dicts are modelled as association lists in insertion order.  The
loop builds a fresh dict with `out[camel_key] = ...`: a dict item
assignment that OVERWRITES in place when the key is already present
(which happens when two distinct input keys convert to the same camel
key) and appends otherwise.  `pySetItem` models one such assignment and
`pyDict` replays the sequence of assignments of the loop. -/

/-- Python dict item assignment `out[k] = v`: if `k` is already present,
overwrite its value in place (keeping its position); otherwise append
the new entry at the end. -/
def pySetItem (out : List (JKey × Json)) (k : JKey) (v : Json) :
    List (JKey × Json) :=
  match out with
  | [] => [(k, v)]
  | (k1, v1) :: rest =>
    if k1 = k then (k, v) :: rest else (k1, v1) :: pySetItem rest k v

/-- Building a Python dict by performing the item assignments of a loop
in order, starting from `out = {}`. -/
def pyDict (entries : List (JKey × Json)) : List (JKey × Json) :=
  entries.foldl (fun out kv => pySetItem out kv.1 kv.2) []

/-- Reading a key from a dict (`out[k]`, as `Option`): first matching
entry, `none` when absent. -/
def lookupKey : List (JKey × Json) → JKey → Option Json
  | [], _ => none
  | (k1, v1) :: rest, k => if k1 = k then some v1 else lookupKey rest k

mutual

/-- `convert_keys_snake_to_camel(obj, preserve_container_keys=preserve)`.
The dict branch performs, for each input entry in order, the dict write
`out[camel_key] = ...` (so a later entry whose converted key collides
with an earlier one overwrites it, as in Python). -/
def convert_keys_snake_to_camel (preserve : List String) : Json → Json
  | .arr xs => .arr (convertList preserve xs)
  | .obj kvs => .obj (pyDict (convertMembers preserve kvs))
  | x => x

/-- The list branch: convert every element recursively. -/
def convertList (preserve : List String) : List Json → List Json
  | [] => []
  | x :: xs => convert_keys_snake_to_camel preserve x :: convertList preserve xs

/-- The (key, value) pairs written by the dict loop
(`for key, value in obj.items()`), in loop order; the conversion of an
entry never reads `out`, so the loop equals these writes replayed by
`pyDict`. -/
def convertMembers (preserve : List String) :
    List (JKey × Json) → List (JKey × Json)
  | [] => []
  | (JKey.nonstr k, v) :: rest =>
    -- `if not isinstance(key, str): out[key] = value; continue`
    (JKey.nonstr k, v) :: convertMembers preserve rest
  | (JKey.str key, v) :: rest =>
    let camel_key := snake_to_camel key
    -- match both snake_case and camelCase
    (if (key ∈ preserve ∨ camel_key ∈ preserve) ∧ v.isObj then
      -- convert ONLY the container key; keep inner keys unchanged
      (JKey.str camel_key, v)
     else
      (JKey.str camel_key, convert_keys_snake_to_camel preserve v))
      :: convertMembers preserve rest

end

/-- The transformation `convertMembers` applies to a single dict entry. -/
def convertEntry (preserve : List String) : JKey × Json → JKey × Json
  | (JKey.nonstr k, v) => (JKey.nonstr k, v)
  | (JKey.str key, v) =>
    if (key ∈ preserve ∨ snake_to_camel key ∈ preserve) ∧ v.isObj then
      (JKey.str (snake_to_camel key), v)
    else
      (JKey.str (snake_to_camel key), convert_keys_snake_to_camel preserve v)

/-- The key under which an entry is written: string keys are camelized,
non-string keys pass through. -/
def convKey : JKey → JKey
  | JKey.str s => JKey.str (snake_to_camel s)
  | JKey.nonstr n => JKey.nonstr n

/-- Left-biased choice on optional values (`a if a is not None else b`). -/
def optOr : Option Json → Option Json → Option Json
  | some v, _ => some v
  | none, b => b

/-! ## Taxonomy normalizers
(functions/orchestrator/role_normalizer.py, job_normalizer.py)
and the Stage-0 schema list coercions (src/schemas/stage0_schema.py). -/

/-- The fields a raw upstream skill/responsibility object may carry
(each `item.get(...)` in the sources reads one of these). -/
structure UpObj where
  skill_name : Option String := none
  name : Option String := none
  skill_id : Option String := none
  skill_code : Option String := none
  responsibility : Option String := none
  role_required_skills_name : Option String := none
  jd_required_skills_name : Option String := none
deriving DecidableEq, Repr

/-- One element of an upstream list: a plain string, a dict, or some
other value (skipped by every branch of the sources). -/
inductive UpItem where
  | str (s : String)
  | obj (o : UpObj)
  | other
deriving DecidableEq, Repr

/-- Python `a or b` for optional strings (`None` and `""` are falsy). -/
def pyOrStr : Option String → Option String → Option String
  | some s, b => if s = "" then b else some s
  | none, b => b

/-- Python `a or d` where `d` is a string default. -/
def pyOrD : Option String → String → String
  | some s, d => if s = "" then d else s
  | none, d => d

/-- Python `x.strip()` on the character list (ASCII whitespace). -/
def pyStripL (s : List Char) : List Char :=
  ((s.dropWhile Char.isWhitespace).reverse.dropWhile Char.isWhitespace).reverse

/-- Python `x.strip()` lifted to `String`. -/
def pyStrip (s : String) : String := ⟨pyStripL s.data⟩

/-- `s.strip()` followed by the pervasive `if s:` non-empty test:
`some (s.strip())` when non-empty, else `none`. -/
def stripKeep (s : String) : Option String :=
  if pyStrip s = "" then none else some (pyStrip s)

/-- The `role_required_skills` loop of `normalize_role_taxonomy_for_stage0`
(functions/orchestrator/role_normalizer.py): strings pass through, dicts
fall back through `skill_name` / `name` / `skill_id` / `"Unknown Skill"`,
anything else is skipped. -/
def normalize_role_required_skills : List UpItem → List String
  | [] => []
  | UpItem.str s :: rest => s :: normalize_role_required_skills rest
  | UpItem.obj o :: rest =>
    pyOrD o.skill_name (pyOrD o.name (pyOrD o.skill_id "Unknown Skill"))
      :: normalize_role_required_skills rest
  | UpItem.other :: rest => normalize_role_required_skills rest

/-- The `job_required_skills` loop of `normalize_job_taxonomy_for_stage0`
(functions/orchestrator/job_normalizer.py): strings pass through, dicts
use `skill_id or skill_code or skill_name or name` and are kept only when
the result is truthy. -/
def normalize_job_required_skills : List UpItem → List String
  | [] => []
  | UpItem.str s :: rest => s :: normalize_job_required_skills rest
  | UpItem.obj o :: rest =>
    match pyOrStr o.skill_id (pyOrStr o.skill_code (pyOrStr o.skill_name o.name)) with
    | some skill =>
      if skill = "" then normalize_job_required_skills rest
      else skill :: normalize_job_required_skills rest
    | none => normalize_job_required_skills rest
  | UpItem.other :: rest => normalize_job_required_skills rest

/-- The `job_responsibilities` loop of `normalize_job_taxonomy_for_stage0`:
strings pass through, dicts use the `responsibility` field when truthy. -/
def normalize_job_responsibilities : List UpItem → List String
  | [] => []
  | UpItem.str s :: rest => s :: normalize_job_responsibilities rest
  | UpItem.obj o :: rest =>
    match o.responsibility with
    | some text =>
      if text = "" then normalize_job_responsibilities rest
      else text :: normalize_job_responsibilities rest
    | none => normalize_job_responsibilities rest
  | UpItem.other :: rest => normalize_job_responsibilities rest

/-- `RoleTaxonomy._coerce_role_required_skills` (src/schemas/stage0_schema.py):
strings are stripped and kept when non-empty; dicts read
`role_required_skills_name or ""`, strip it and keep when non-empty. -/
def coerce_role_required_skills (v : List UpItem) : List String :=
  v.filterMap fun
    | UpItem.str s => stripKeep s
    | UpItem.obj o => stripKeep (pyOrD o.role_required_skills_name "")
    | UpItem.other => none

/-- `JobTaxonomy._coerce_job_required_skills` (src/schemas/stage0_schema.py). -/
def coerce_job_required_skills (v : List UpItem) : List String :=
  v.filterMap fun
    | UpItem.str s => stripKeep s
    | UpItem.obj o => stripKeep (pyOrD o.jd_required_skills_name "")
    | UpItem.other => none

/-- `JobTaxonomy._coerce_job_responsibilities` (src/schemas/stage0_schema.py). -/
def coerce_job_responsibilities (v : List UpItem) : List String :=
  v.filterMap fun
    | UpItem.str s => stripKeep s
    | UpItem.obj o => stripKeep (pyOrD o.responsibility "")
    | UpItem.other => none

/-- The normalize-then-validate pipeline for role required skills:
`normalize_role_taxonomy_for_stage0` produces a list of plain strings,
which the schema validator then coerces. -/
def role_skills_pipeline (items : List UpItem) : List String :=
  coerce_role_required_skills ((normalize_role_required_skills items).map UpItem.str)

/-- The normalize-then-validate pipeline for job required skills. -/
def job_skills_pipeline (items : List UpItem) : List String :=
  coerce_job_required_skills ((normalize_job_required_skills items).map UpItem.str)

/-- The normalize-then-validate pipeline for job responsibilities. -/
def job_responsibilities_pipeline (items : List UpItem) : List String :=
  coerce_job_responsibilities ((normalize_job_responsibilities items).map UpItem.str)

/-- Claim C3 as worded: in the normalized output every entry that is
empty or lacks a name is dropped and every kept entry is trimmed, in the
original relative order.  For role items the name-bearing fields are
`skill_name` / `name` / `skill_id`. -/
def c3_claimed_role_output (items : List UpItem) : List String :=
  items.filterMap fun
    | UpItem.str s => stripKeep s
    | UpItem.obj o =>
      match pyOrStr o.skill_name (pyOrStr o.name o.skill_id) with
      | some n => if n = "" then none else stripKeep n
      | none => none
    | UpItem.other => none

/-! ## `_encode_id_for_path` and `urllib.parse.quote(raw_id, safe="")`
(functions/orchestrator/eport_orchestrator_service.py) -/

/-- The UTF-8 encoding of one character, as byte values. -/
def utf8Bytes (c : Char) : List Nat :=
  if c.toNat < 0x80 then [c.toNat]
  else if c.toNat < 0x800 then
    [0xC0 ||| (c.toNat >>> 6), 0x80 ||| (c.toNat &&& 0x3F)]
  else if c.toNat < 0x10000 then
    [0xE0 ||| (c.toNat >>> 12), 0x80 ||| ((c.toNat >>> 6) &&& 0x3F),
     0x80 ||| (c.toNat &&& 0x3F)]
  else
    [0xF0 ||| (c.toNat >>> 18), 0x80 ||| ((c.toNat >>> 12) &&& 0x3F),
     0x80 ||| ((c.toNat >>> 6) &&& 0x3F), 0x80 ||| (c.toNat &&& 0x3F)]

/-- The bytes `urllib.parse.quote` never encodes (its `_ALWAYS_SAFE`:
ASCII letters, digits, and `_.-~`); with `safe=""` everything else is
percent-encoded. -/
def isAlwaysSafeByte (b : Nat) : Bool :=
  (48 ≤ b ∧ b ≤ 57) ∨ (65 ≤ b ∧ b ≤ 90) ∨ (97 ≤ b ∧ b ≤ 122) ∨
    b = 45 ∨ b = 46 ∨ b = 95 ∨ b = 126

/-- Uppercase hex digit of a value below 16. -/
def hexDigitU (n : Nat) : Char :=
  if n < 10 then Char.ofNat (48 + n) else Char.ofNat (55 + n)

/-- `%XX` encoding of one byte, or the byte itself when always safe. -/
def quoteByte (b : Nat) : List Char :=
  if isAlwaysSafeByte b then [Char.ofNat b]
  else ['%', hexDigitU (b / 16), hexDigitU (b % 16)]

/-- `urllib.parse.quote(s, safe="")`: percent-encode every UTF-8 byte
outside the always-safe set. -/
def pyQuote (s : String) : String :=
  ⟨((s.data.map utf8Bytes).flatten.map quoteByte).flatten⟩

/-- `_encode_id_for_path` (functions/orchestrator/eport_orchestrator_service.py):
`None` passes through; an id containing `'#'` goes through
`quote(raw_id, safe="")`; otherwise the id is returned as-is. -/
def encode_id_for_path : Option String → Option String
  | none => none
  | some s => if '#' ∈ s.data then some (pyQuote s) else some s

/-! ## `DataFetcher.fetch_role_taxonomy` / `fetch_jd_taxonomy`
(functions/orchestrator/data_fetcher.py)

The fetchers are modelled by the outbound request they would issue:
`none` means the fetch short-circuits and no call is made, `some path`
means one GET to `path` (the endpoint template with the placeholder
substituted, as `template.format(...)` does for the single placeholder). -/

/-- `fetch_role_taxonomy(role_id)`: `if not role_id: return None`
(falsy = `None` or `""`), otherwise build the path and call. -/
def fetch_role_taxonomy (role_id : Option String) (tpl : String) : Option String :=
  match role_id with
  | none => none
  | some rid => if rid = "" then none else some (tpl.replace "{role_id}" rid)

/-- `fetch_jd_taxonomy(jd_id)`: same short-circuit as the role fetch. -/
def fetch_jd_taxonomy (jd_id : Option String) (tpl : String) : Option String :=
  match jd_id with
  | none => none
  | some jid => if jid = "" then none else some (tpl.replace "{jd_id}" jid)

/-! ## Stage-0 schema (src/schemas/stage0_schema.py)

`date` values are modelled by their ordinal (`Int`); only their linear
order matters to the validators under verification. -/

/-- `Language` enum. -/
inductive Language where
  | en
  | th
deriving DecidableEq, Repr

/-- `Language(value)`: `none` models a raised `ValueError`. -/
def Language.ofValue : String → Option Language
  | "en" => some .en
  | "th" => some .th
  | _ => none

/-- `LanguageTone` enum. -/
inductive LanguageTone where
  | formal
  | neutral
  | academic
  | funny
  | casual
deriving DecidableEq, Repr

/-- `LanguageTone(value)`: `none` models a raised `ValueError`. -/
def LanguageTone.ofValue : String → Option LanguageTone
  | "formal" => some .formal
  | "neutral" => some .neutral
  | "academic" => some .academic
  | "funny" => some .funny
  | "casual" => some .casual
  | _ => none

/-- `PersonalInfo`. -/
structure PersonalInfo where
  name : String
  email : String
  phone : Option String := none
  linkedin : Option String := none
deriving DecidableEq, Repr

/-- `Education` (dates as ordinals). -/
structure Education where
  id : String
  degree : String
  institution : String
  gpa : Option Int := none
  start_date : Int
  graduation_date : Option Int := none
  major : Option String := none
  honors : Option String := none
deriving DecidableEq, Repr

/-- `Education.validate_dates`: raise when `graduation_date` is present
and earlier than `start_date`; otherwise return the model unchanged. -/
def Education.validate_dates (e : Education) : Except String Education :=
  match e.graduation_date with
  | some g =>
    if g < e.start_date then
      Except.error "graduation_date cannot be earlier than start_date"
    else Except.ok e
  | none => Except.ok e

/-- `Experience` (dates as ordinals). -/
structure Experience where
  id : String
  title : String
  company : String
  start_date : Int
  end_date : Option Int := none
  responsibilities : List String
deriving DecidableEq, Repr

/-- `Experience.validate_end_date`: raise when `end_date` is present and
earlier than `start_date`; otherwise return the model unchanged. -/
def Experience.validate_end_date (x : Experience) : Except String Experience :=
  match x.end_date with
  | some e =>
    if e < x.start_date then
      Except.error "end_date cannot be earlier than start_date"
    else Except.ok x
  | none => Except.ok x

/-- `Skill`. -/
structure Skill where
  id : String
  name : String
  description : Option String := none
  level : String
deriving DecidableEq, Repr

/-- `Award`. -/
structure Award where
  id : String
  title : String
  issuer : String
  date : Option Int := none
  description : Option String := none
deriving DecidableEq, Repr

/-- `Extracurricular`. -/
structure Extracurricular where
  id : String
  title : String
  organization : String
  role : Option String := none
  duration : Option String := none
  description : Option String := none
deriving DecidableEq, Repr

/-- `Publication`. -/
structure Publication where
  id : String
  title : String
  venue : Option String := none
  year : Option Int := none
  link : Option String := none
  description : Option String := none
deriving DecidableEq, Repr

/-- `Training`. -/
structure Training where
  id : String
  title : String
  provider : Option String := none
  training_date : Option Int := none
  description : Option String := none
deriving DecidableEq, Repr

/-- `Reference`. -/
structure Reference where
  id : String
  name : String
  title : Option String := none
  company : Option String := none
  email : Option String := none
  phone : Option String := none
  relationship : Option String := none
  note : Option String := none
deriving DecidableEq, Repr

/-- `AdditionalInfoItem`. -/
structure AdditionalInfoItem where
  id : String
  label : String
  value : String
deriving DecidableEq, Repr

/-- `StudentProfile`. -/
structure StudentProfile where
  personal_info : PersonalInfo
  education : List Education
  experience : List Experience := []
  skills : List Skill
  awards : List Award := []
  extracurriculars : List Extracurricular := []
  publications : List Publication := []
  training : List Training := []
  references : List Reference := []
  additional_info : List AdditionalInfoItem := []
deriving DecidableEq, Repr

/-- `RoleTaxonomy` (after coercion). -/
structure RoleTaxonomy where
  role_id : Option String := none
  role_title : String
  role_description : String
  role_required_skills : List String
deriving DecidableEq, Repr

/-- `JobTaxonomy` (after coercion). -/
structure JobTaxonomy where
  jd_id : Option String := none
  job_title : String
  job_required_skills : List String
  job_responsibilities : List String := []
  company_name : Option String := none
  company_industry : Option String := none
deriving DecidableEq, Repr

/-- `Stage0CVGenerationRequest` (src/schemas/stage0_schema.py, the model
the orchestrator dumps and posts to the generation service).  Note: the
model has NO `user_or_llm_comments` field and forbids extra fields. -/
structure Stage0CVGenerationRequest where
  user_id : String
  language : Language := .en
  language_tone : LanguageTone := .formal
  template_id : String := "T_EMPLOYER_STD_V3"
  sections : List String := ["profile_summary", "skills", "experience", "education"]
  student_profile : StudentProfile
  user_input_cv_text_by_section : Option (List (String × Json)) := none
  target_role_taxonomy : Option RoleTaxonomy := none
  target_jd_taxonomy : Option JobTaxonomy := none
  jd_required_skills : Option (List String) := none

/-- The top-level keys of `stage0.model_dump(mode="json", exclude_none=True)`:
the declared fields in order, with absent (`None`) optionals excluded. -/
def Stage0CVGenerationRequest.model_dump_keys (p : Stage0CVGenerationRequest) : List String :=
  ["user_id", "language", "language_tone", "template_id", "sections", "student_profile"]
    ++ (if p.user_input_cv_text_by_section.isSome then ["user_input_cv_text_by_section"] else [])
    ++ (if p.target_role_taxonomy.isSome then ["target_role_taxonomy"] else [])
    ++ (if p.target_jd_taxonomy.isSome then ["target_jd_taxonomy"] else [])
    ++ (if p.jd_required_skills.isSome then ["jd_required_skills"] else [])

/-- The payload key set actually posted by
`OrchestratorService._call_generation_service`: the dumped keys, with
`payload.pop("user_or_llm_comments", None)` applied when the
`enable_user_or_llm_comments` settings flag is off. -/
def call_generation_payload_keys (enable_user_or_llm_comments : Bool)
    (stage0 : Stage0CVGenerationRequest) : List String :=
  let keys := stage0.model_dump_keys
  if enable_user_or_llm_comments then keys
  else keys.filter (fun k => k ≠ "user_or_llm_comments")

/-! ## Orchestrator request / response envelopes
(src/schemas/input_schema.py, src/schemas/output_schema.py) -/

/-- `GenerateCVRequest` (the external API payload). -/
structure GenerateCVRequest where
  student_id : String
  role_id : Option String := none
  jd_id : Option String := none
  template_id : String := "T_EMPLOYER_STD_V3"
  language : Language := .en
  language_tone : LanguageTone := .formal
  sections : List String :=
    ["profile_summary", "skills", "experience", "education", "awards", "extracurricular"]
  user_input_cv_text_by_section : Option (List (String × Json)) := none
  user_or_llm_comments : Option (List (String × String)) := none
  request_metadata : Option Json := none

/-- `GenerateCVError` (output_schema.py). -/
structure GenerateCVError where
  code : String
  message : String
  details : Option Json := none

/-- `GeneratedCV` (output_schema.py). -/
structure GeneratedCV where
  job_id : Option String := none
  template_id : Option String := none
  language : Option Language := none
  language_tone : Option LanguageTone := none
  rendered_html : Option String := none
  rendered_markdown : Option String := none
  sections : Option Json := none
  raw_generation_result : Option Json := none

/-- The `status` literal of the response envelope. -/
inductive RespStatus where
  | success
  | error
deriving DecidableEq, Repr

/-- `GenerateCVResponse` (output_schema.py). -/
structure GenerateCVResponse where
  status : RespStatus
  cv : Option GeneratedCV := none
  error : Option GenerateCVError := none
  user_or_llm_comments : Option (List (String × String)) := none
  request_metadata : Option Json := none

/-! ## `OrchestratorService.generate_cv`
(functions/orchestrator/eport_orchestrator_service.py)

The awaited fetch gather, the Stage-0 build, and the generation call are
external effects; each is modelled by the outcome it produces, and
`generate_cv` is the function of the request and those outcomes, exactly
following the source's `try`/`except` branch structure. -/

/-- The result of the awaited `asyncio.gather` over the four fetches:
the raw student / optional role / optional jd / raw template JSON, or the
exception text when any required fetch failed after retries. -/
structure FetchedData where
  student_raw : Json
  role_raw : Option Json := none
  jd_raw : Option Json := none
  template_raw : Json

/-- The raw generation-service JSON result, as read by
`_map_generation_result_to_cv` via `generation_result.get(...)`. -/
structure GenerationResult where
  job_id : Option String := none
  template_id : Option String := none
  language : Option String := none
  language_tone : Option String := none
  rendered_html : Option String := none
  rendered_markdown : Option String := none
  sections : Option Json := none
  asJson : Json

/-- Outcome of `await self._call_generation_service(...)`: a result, an
`httpx.HTTPError`, or any other exception. -/
inductive GenOutcome where
  | ok (result : GenerationResult)
  | httpError (msg : String)
  | unexpectedError (msg : String)

/-- `Language(v) if v else default`, with `except ValueError` falling
back to the default (truthiness: `""` is falsy). -/
def pickLanguage (v : Option String) (dflt : Language) : Language :=
  match v with
  | none => dflt
  | some s => if s = "" then dflt else (Language.ofValue s).getD dflt

/-- The tone analogue of `pickLanguage`. -/
def pickLanguageTone (v : Option String) (dflt : LanguageTone) : LanguageTone :=
  match v with
  | none => dflt
  | some s => if s = "" then dflt else (LanguageTone.ofValue s).getD dflt

/-- `OrchestratorService._map_generation_result_to_cv`. -/
def map_generation_result_to_cv (generation_result : GenerationResult)
    (req : GenerateCVRequest) : GeneratedCV :=
  { job_id := generation_result.job_id
    template_id := some (generation_result.template_id.getD req.template_id)
    language := some (pickLanguage generation_result.language req.language)
    language_tone := some (pickLanguageTone generation_result.language_tone req.language_tone)
    rendered_html := generation_result.rendered_html
    rendered_markdown := generation_result.rendered_markdown
    sections := generation_result.sections
    raw_generation_result := some generation_result.asJson }

/-- `OrchestratorService.generate_cv`, as a function of the request and
the outcomes of its three effectful stages (fetch gather, Stage-0 build,
generation call).  Every branch mirrors the corresponding source branch,
including the error codes and the unconditional pass-through of
`user_or_llm_comments` and `request_metadata`. -/
def generate_cv (req : GenerateCVRequest)
    (fetch_outcome : Except String FetchedData)
    (build_outcome : FetchedData → Except String Stage0CVGenerationRequest)
    (gen_outcome : Stage0CVGenerationRequest → GenOutcome) : GenerateCVResponse :=
  match fetch_outcome with
  | Except.error reason =>
    { status := .error
      cv := none
      error := some
        { code := "ORCH_DATA_API_ERROR"
          message := "Failed to fetch required data from eport_data_api."
          details := some (Json.obj [(JKey.str "reason", Json.str reason)]) }
      user_or_llm_comments := req.user_or_llm_comments
      request_metadata := req.request_metadata }
  | Except.ok data =>
    match build_outcome data with
    | Except.error reason =>
      { status := .error
        cv := none
        error := some
          { code := "ORCH_STAGE0_BUILD_ERROR"
            message := "Failed to construct Stage-0 payload for generation."
            details := some (Json.obj [(JKey.str "reason", Json.str reason)]) }
        user_or_llm_comments := req.user_or_llm_comments
        request_metadata := req.request_metadata }
    | Except.ok stage0 =>
      match gen_outcome stage0 with
      | GenOutcome.httpError reason =>
        { status := .error
          cv := none
          error := some
            { code := "ORCH_GENERATION_HTTP_ERROR"
              message := "Failed to call CV generation service."
              details := some (Json.obj [(JKey.str "reason", Json.str reason)]) }
          user_or_llm_comments := req.user_or_llm_comments
          request_metadata := req.request_metadata }
      | GenOutcome.unexpectedError reason =>
        { status := .error
          cv := none
          error := some
            { code := "ORCH_GENERATION_ERROR"
              message := "Unexpected error while generating CV."
              details := some (Json.obj [(JKey.str "reason", Json.str reason)]) }
          user_or_llm_comments := req.user_or_llm_comments
          request_metadata := req.request_metadata }
      | GenOutcome.ok generation_result =>
        { status := .success
          cv := some (map_generation_result_to_cv generation_result req)
          error := none
          user_or_llm_comments := req.user_or_llm_comments
          request_metadata := req.request_metadata }


/-! ## Fused per-entry rules for the normalize-then-validate pipelines
(what the pipelines compute, claim C3 amended) -/

/-- The role pipeline per entry: strings stripped and kept when
non-empty; objects fall back through `skill_name` / `name` / `skill_id`
to the literal `"Unknown Skill"`, then stripped and kept when non-empty
(objects lacking a name are NOT dropped); other values skipped. -/
def amended_role_entry : UpItem → Option String
  | UpItem.str s => stripKeep s
  | UpItem.obj o =>
    stripKeep (pyOrD o.skill_name (pyOrD o.name (pyOrD o.skill_id "Unknown Skill")))
  | UpItem.other => none

/-- The job required-skills pipeline per entry: strings stripped and
kept when non-empty; objects use the first truthy of `skill_id` /
`skill_code` / `skill_name` / `name`, dropped when none, else stripped
and kept when non-empty; other values skipped. -/
def amended_job_skill_entry : UpItem → Option String
  | UpItem.str s => stripKeep s
  | UpItem.obj o =>
    match pyOrStr o.skill_id (pyOrStr o.skill_code (pyOrStr o.skill_name o.name)) with
    | some n => if n = "" then none else stripKeep n
    | none => none
  | UpItem.other => none

/-- The job responsibilities pipeline per entry: strings stripped and
kept when non-empty; objects use the `responsibility` field when truthy,
then stripped and kept when non-empty; other values skipped. -/
def amended_job_resp_entry : UpItem → Option String
  | UpItem.str s => stripKeep s
  | UpItem.obj o =>
    match o.responsibility with
    | some t => if t = "" then none else stripKeep t
    | none => none
  | UpItem.other => none

/-! ## Concrete example data for witnesses -/

/-- A minimal valid student profile (one education entry, one skill). -/
def example_student_profile : StudentProfile :=
  { personal_info := { name := "Ada", email := "ada@example.com" }
    education :=
      [{ id := "edu-1", degree := "BSc", institution := "U", start_date := 100 }]
    skills := [{ id := "skill-1", name := "Python", level := "L3_Advanced" }] }

/-- A concrete Stage-0 payload as built by `_build_stage0_payload`. -/
def example_stage0 : Stage0CVGenerationRequest :=
  { user_id := "U-1001"
    student_profile := example_student_profile }

/-- A concrete external request carrying free-form comments and
request metadata. -/
def example_request : GenerateCVRequest :=
  { student_id := "U-1001"
    user_or_llm_comments := some [("profile_summary", "make it short")]
    request_metadata := some (Json.obj [(JKey.str "channel", Json.str "web")]) }

/-! ## Supporting lemmas: `snake_to_camel` -/

/-- No character in 97..122 maps under the ASCII uppercase shift to `'_'`. -/
theorem pyUpperChar_key : ∀ m, m < 123 → 97 ≤ m → (Char.ofNat (m - 32)) ≠ '_' := by decide

/-- `pyUpperChar` never produces `'_'` from a non-underscore character. -/
theorem pyUpperChar_ne_underscore {c : Char} (h : c ≠ '_') : pyUpperChar c ≠ '_' := by
  unfold pyUpperChar
  split
  · rename_i hc
    have h1 : 97 ≤ c.toNat := hc.1
    have h2 : c.toNat ≤ 122 := hc.2
    exact pyUpperChar_key c.toNat (by omega) h1
  · exact h

/-- `splitU` always yields at least one piece. -/
theorem splitU_ne_nil (l : List Char) : splitU l ≠ [] := by
  induction l with
  | nil => simp [splitU]
  | cons c cs ih =>
    simp only [splitU]
    cases h : splitU cs with
    | nil => simp
    | cons p ps => by_cases hc : c = '_' <;> simp [hc]

/-- No piece of `splitU` contains the separator. -/
theorem mem_splitU_not_underscore (l : List Char) : ∀ p ∈ splitU l, '_' ∉ p := by
  induction l with
  | nil =>
    intro p hp
    simp [splitU] at hp
    subst hp; simp
  | cons c cs ih =>
    intro p hp
    simp only [splitU] at hp
    cases h : splitU cs with
    | nil => exact absurd h (splitU_ne_nil cs)
    | cons q qs =>
      rw [h] at hp
      have ihq : '_' ∉ q := ih q (h ▸ List.mem_cons_self q qs)
      have ihmem : ∀ r ∈ qs, '_' ∉ r := fun r hr => ih r (h ▸ List.mem_cons_of_mem _ hr)
      by_cases hc : c = '_'
      · simp only [if_pos hc] at hp
        rcases List.mem_cons.mp hp with rfl | hp2
        · simp
        · rcases List.mem_cons.mp hp2 with rfl | hp3
          · exact ihq
          · exact ihmem p hp3
      · simp only [if_neg hc] at hp
        rcases List.mem_cons.mp hp with rfl | hp2
        · intro hm
          rcases List.mem_cons.mp hm with h1 | h1
          · exact hc h1.symm
          · exact ihq h1
        · exact ihmem p hp2

/-- Splitting a separator-free list is the identity piece. -/
theorem splitU_no_underscore {l : List Char} (h : '_' ∉ l) : splitU l = [l] := by
  induction l with
  | nil => simp [splitU]
  | cons c cs ih =>
    have hc : c ≠ '_' := fun hc => h (hc ▸ List.mem_cons_self _ _)
    have hcs : '_' ∉ cs := fun hm => h (List.mem_cons_of_mem _ hm)
    simp only [splitU, ih hcs]
    simp [hc]

/-- The stripped core is empty exactly when the string is all separators. -/
theorem stripU_eq_nil_iff {s : List Char} : stripU s = [] ↔ s.all isU := by
  constructor
  · intro h
    unfold stripU at h
    rw [List.reverse_eq_nil_iff, List.dropWhile_eq_nil_iff] at h
    rcases hd : s.dropWhile isU with _ | ⟨c, cs⟩
    · rw [List.dropWhile_eq_nil_iff] at hd
      simpa [List.all_eq_true] using hd
    · have hc : ¬ isU c := by
        have h2 := List.head?_dropWhile_not isU s
        rw [hd] at h2
        simp at h2
        simpa [isU] using h2
      have : isU c := h c (by simp [hd])
      exact absurd this hc
  · intro h
    unfold stripU
    have : s.dropWhile isU = [] := by
      rw [List.dropWhile_eq_nil_iff]
      intro x hx
      exact List.all_eq_true.mp h x hx
    simp [this]

/-- A separator run taken by `takeWhile` is literally a replicate. -/
theorem takeWhile_isU_eq_replicate (s : List Char) :
    s.takeWhile isU = List.replicate (s.takeWhile isU).length '_' := by
  rw [List.eq_replicate_iff]
  exact ⟨rfl, fun b hb => by simpa [isU] using List.mem_takeWhile_imp hb⟩

/-- `takeWhile` passes over an underscore replicate prefix. -/
theorem takeWhile_isU_replicate_append (n : Nat) (l : List Char) :
    (List.replicate n '_' ++ l).takeWhile isU = List.replicate n '_' ++ l.takeWhile isU := by
  induction n with
  | zero => simp
  | succ n ih => simp [List.replicate_succ, isU, ih]

/-- `dropWhile` consumes an underscore replicate prefix. -/
theorem dropWhile_isU_replicate_append (n : Nat) (l : List Char) :
    (List.replicate n '_' ++ l).dropWhile isU = l.dropWhile isU := by
  induction n with
  | zero => simp
  | succ n ih => simp [List.replicate_succ, isU, ih]

/-- `takeWhile` stops immediately on a non-underscore head. -/
theorem takeWhile_isU_of_head_ne {c : Char} (cs : List Char) (h : c ≠ '_') :
    (c :: cs).takeWhile isU = [] := by simp [List.takeWhile_cons, isU, h]

/-- `dropWhile` keeps a list with a non-underscore head. -/
theorem dropWhile_isU_of_head_ne {c : Char} (cs : List Char) (h : c ≠ '_') :
    (c :: cs).dropWhile isU = c :: cs := by simp [List.dropWhile_cons, isU, h]

/-- The filtered parts are non-empty and separator-free. -/
theorem parts_facts {core first : List Char} {rest : List (List Char)}
    (hp : (splitU core).filter (fun p => p ≠ []) = first :: rest) :
    (first ≠ [] ∧ '_' ∉ first) ∧ ∀ p ∈ rest, p ≠ [] ∧ '_' ∉ p := by
  have hmem : ∀ p ∈ first :: rest, p ≠ [] ∧ '_' ∉ p := by
    intro p hpmem
    rw [← hp] at hpmem
    have h1 := List.mem_of_mem_filter hpmem
    have h2 := List.of_mem_filter hpmem
    simp at h2
    exact ⟨h2, mem_splitU_not_underscore core p h1⟩
  exact ⟨hmem first (List.mem_cons_self _ _), fun p hp2 => hmem p (List.mem_cons_of_mem _ hp2)⟩

/-- The camelized core contains no separator. -/
theorem camel_no_underscore {first : List Char} {rest : List (List Char)}
    (h1 : '_' ∉ first) (h2 : ∀ p ∈ rest, p ≠ [] ∧ '_' ∉ p) :
    '_' ∉ first ++ (rest.map capitalizePart).flatten := by
  intro hm
  rcases List.mem_append.mp hm with hm | hm
  · exact h1 hm
  · rcases List.mem_flatten.mp hm with ⟨q, hq, hcq⟩
    rcases List.mem_map.mp hq with ⟨p, hp, rfl⟩
    rcases h2 p hp with ⟨hpne, hpnu⟩
    rcases List.exists_cons_of_ne_nil hpne with ⟨d, ds, rfl⟩
    simp only [capitalizePart] at hcq
    rcases List.mem_cons.mp hcq with h3 | h3
    · exact pyUpperChar_ne_underscore
        (fun hd => hpnu (hd ▸ List.mem_cons_self _ _)) h3.symm
    · exact hpnu (List.mem_cons_of_mem _ h3)

/-- The value of `snake_to_camelL` in its main branch. -/
theorem stc_main {s first : List Char} {rest : List (List Char)} (hmem : '_' ∈ s)
    (hall : ¬ s.all isU)
    (hp : (splitU (stripU s)).filter (fun p => p ≠ []) = first :: rest) :
    snake_to_camelL s =
      List.replicate (s.takeWhile isU).length '_'
        ++ (first ++ (rest.map capitalizePart).flatten)
        ++ List.replicate (s.reverse.takeWhile isU).length '_' := by
  have hcore : ¬ stripU s = [] := fun h => hall (stripU_eq_nil_iff.mp h)
  simp only [snake_to_camelL, hp]
  simp [hmem, hcore]

/-- Strings without the separator pass through unchanged. -/
theorem stc_no_underscore {s : List Char} (h : '_' ∉ s) : snake_to_camelL s = s := by
  simp [snake_to_camelL, h]

/-- All-separator strings pass through unchanged. -/
theorem stc_all_underscore {s : List Char} (h : s.all isU) : snake_to_camelL s = s := by
  by_cases hmem : '_' ∈ s
  · have hcore : stripU s = [] := stripU_eq_nil_iff.mpr h
    simp [snake_to_camelL, hmem, hcore]
  · exact stc_no_underscore hmem

/-- `snake_to_camelL` is idempotent. -/
theorem snake_to_camelL_idem (s : List Char) :
    snake_to_camelL (snake_to_camelL s) = snake_to_camelL s := by
  by_cases hmem : '_' ∈ s
  · by_cases hall : s.all isU
    · rw [stc_all_underscore hall, stc_all_underscore hall]
    · cases hp : (splitU (stripU s)).filter (fun p => p ≠ []) with
      | nil =>
        have hcore : ¬ stripU s = [] := fun h => hall (stripU_eq_nil_iff.mp h)
        have hs : snake_to_camelL s = s := by
          simp only [snake_to_camelL, hp]
          simp [hmem, hcore]
        rw [hs, hs]
      | cons first rest =>
        have hR := stc_main hmem hall hp
        set L := (s.takeWhile isU).length with hL
        set T := (s.reverse.takeWhile isU).length with hT
        set camel := first ++ (rest.map capitalizePart).flatten with hcamel
        rcases parts_facts hp with ⟨⟨hfne, hfnu⟩, hrest⟩
        have hcnu : '_' ∉ camel := camel_no_underscore hfnu hrest
        have hcne : camel ≠ [] := by
          rcases List.exists_cons_of_ne_nil hfne with ⟨d, ds, rfl⟩
          simp [hcamel]
        rw [hR]
        by_cases hzero : L = 0 ∧ T = 0
        · rw [hzero.1, hzero.2]
          simp only [List.replicate_zero, List.nil_append, List.append_nil]
          exact stc_no_underscore hcnu
        · rcases List.exists_cons_of_ne_nil hcne with ⟨c, cs, hcons⟩
          have hchead : c ≠ '_' := fun h => hcnu (h ▸ hcons ▸ List.mem_cons_self _ _)
          have hrevne : camel.reverse ≠ [] := by simp [hcne]
          rcases List.exists_cons_of_ne_nil hrevne with ⟨d, ds, hrev⟩
          have hdhead : d ≠ '_' := by
            intro hd
            apply hcnu
            have hmem2 : d ∈ camel.reverse := hrev ▸ List.mem_cons_self _ _
            rw [List.mem_reverse] at hmem2
            exact hd ▸ hmem2
          have hRmem : '_' ∈ List.replicate L '_' ++ camel ++ List.replicate T '_' := by
            rcases Nat.eq_zero_or_pos L with hL0 | hLpos
            · have hT0 : T ≠ 0 := fun h => hzero ⟨hL0, h⟩
              exact List.mem_append.mpr (.inr (List.mem_replicate.mpr ⟨hT0, rfl⟩))
            · exact List.mem_append.mpr
                (.inl (List.mem_append.mpr (.inl (List.mem_replicate.mpr ⟨by omega, rfl⟩))))
          have hdrop1 : (List.replicate L '_' ++ camel ++ List.replicate T '_').dropWhile isU
              = camel ++ List.replicate T '_' := by
            rw [List.append_assoc, dropWhile_isU_replicate_append]
            rw [hcons]
            exact List.dropWhile_cons_of_neg (by simp [isU, hchead])
          have hstrip : stripU (List.replicate L '_' ++ camel ++ List.replicate T '_') = camel := by
            unfold stripU
            rw [hdrop1]
            rw [List.reverse_append, List.reverse_replicate, dropWhile_isU_replicate_append]
            rw [hrev]
            rw [List.dropWhile_cons_of_neg (by simp [isU, hdhead])]
            rw [← hrev]
            simp
          have htake1 : ((List.replicate L '_' ++ camel ++ List.replicate T '_').takeWhile isU).length = L := by
            rw [List.append_assoc, takeWhile_isU_replicate_append, hcons, List.cons_append,
                takeWhile_isU_of_head_ne _ hchead]
            simp
          have htake2 : ((List.replicate L '_' ++ camel ++ List.replicate T '_').reverse.takeWhile isU).length = T := by
            rw [List.reverse_append, List.reverse_append, List.reverse_replicate, List.reverse_replicate]
            rw [takeWhile_isU_replicate_append, hrev, List.cons_append,
                takeWhile_isU_of_head_ne _ hdhead]
            simp
          have hsplit : (splitU camel).filter (fun p => p ≠ []) = [camel] := by
            rw [splitU_no_underscore hcnu]
            simp [hcne]
          have hcorene : ¬ stripU (List.replicate L '_' ++ camel ++ List.replicate T '_') = [] := by
            rw [hstrip]; exact hcne
          simp only [snake_to_camelL, hstrip, hsplit]
          simp only [hmem, hRmem, if_true, if_neg hcorene]
          rw [htake1, htake2]
          simp
  · rw [stc_no_underscore hmem, stc_no_underscore hmem]

/-! ## Claim C2 -/

/-- C2: for every string, `snake_to_camel` returns the string unchanged
when it has no separator or consists only of separators, and otherwise
preserves the leading/trailing separator runs verbatim, splits the core
into non-empty parts, keeps the first, uppercases the first character of
each later part, and joins with no separator (the spec-side algorithm
`toCamel_specL`); moreover `toCamel("a_b_c") = "aBC"`,
`toCamel("__private_field") = "__privateField"`, and
`toCamel("field__") = "field__"`. -/
theorem snake_to_camel_matches_spec :
    (∀ s : List Char, snake_to_camelL s = toCamel_specL s) ∧
    (∀ k : String, snake_to_camel k = ⟨toCamel_specL k.data⟩) ∧
    snake_to_camel "a_b_c" = "aBC" ∧
    snake_to_camel "__private_field" = "__privateField" ∧
    snake_to_camel "field__" = "field__" := by
  have main : ∀ s : List Char, snake_to_camelL s = toCamel_specL s := by
    intro s
    by_cases hmem : '_' ∈ s
    · by_cases hall : s.all isU
      · have hcore : stripU s = [] := stripU_eq_nil_iff.mpr hall
        simp [snake_to_camelL, toCamel_specL, hmem, hall, hcore]
      · have hcore : ¬ stripU s = [] := fun h => hall (stripU_eq_nil_iff.mp h)
        simp only [snake_to_camelL, toCamel_specL, hmem, hall, hcore]
        have hlead := takeWhile_isU_eq_replicate s
        have htrail := takeWhile_isU_eq_replicate s.reverse
        cases hp : (splitU (stripU s)).filter (fun p => p ≠ []) with
        | nil => simp
        | cons first rest =>
          simp only []
          rw [← hlead]
          conv_rhs => rw [htrail]
          rw [List.reverse_replicate]
          simp
    · simp [snake_to_camelL, toCamel_specL, hmem]
  refine ⟨main, fun k => congrArg String.mk (main k.data), by decide, by decide, by decide⟩

/-! ## Claim C8 -/

/-- C8: applying the snake-to-camel conversion twice gives the same
result as applying it once, for every string. -/
theorem snake_to_camel_idempotent :
    ∀ k : String, snake_to_camel (snake_to_camel k) = snake_to_camel k := by
  intro k
  show String.mk (snake_to_camelL (String.mk (snake_to_camelL k.data)).data)
      = String.mk (snake_to_camelL k.data)
  exact congrArg String.mk (snake_to_camelL_idem k.data)

/-! ## Supporting lemmas: `convert_keys_snake_to_camel` -/

/-- The dict branch's write list is an entrywise map. -/
theorem convertMembers_eq_map (P : List String) (kvs : List (JKey × Json)) :
    convertMembers P kvs = kvs.map (convertEntry P) := by
  induction kvs with
  | nil => simp [convertMembers]
  | cons kv rest ih =>
    rcases kv with ⟨k, v⟩
    cases k with
    | str key => simp [convertMembers, convertEntry, ih]
    | nonstr n => simp [convertMembers, convertEntry, ih]

/-- Reading after one dict write: the written key returns the written
value, every other key is unaffected. -/
theorem pySetItem_lookup (out : List (JKey × Json)) (k : JKey) (v : Json) (k2 : JKey) :
    lookupKey (pySetItem out k v) k2 = if k2 = k then some v else lookupKey out k2 := by
  induction out with
  | nil =>
    simp only [pySetItem, lookupKey]
    by_cases h : k2 = k
    · subst h; simp
    · rw [if_neg (Ne.symm h), if_neg h]
  | cons kv rest ih =>
    rcases kv with ⟨k1, v1⟩
    simp only [pySetItem]
    by_cases hk : k1 = k
    · subst hk
      simp only [if_pos rfl, lookupKey]
      by_cases h2 : k2 = k1
      · subst h2; simp
      · rw [if_neg (Ne.symm h2), if_neg h2, if_neg (Ne.symm h2)]
    · simp only [if_neg hk, lookupKey]
      by_cases h1 : k1 = k2
      · subst h1
        rw [if_pos rfl, if_neg hk, if_pos rfl]
      · rw [if_neg h1, ih, if_neg h1]

/-- `optOr` with no fallback. -/
theorem optOr_none_right (a : Option Json) : optOr a none = a := by
  cases a <;> rfl

/-- `optOr` is associative. -/
theorem optOr_assoc (a b c : Option Json) :
    optOr (optOr a b) c = optOr a (optOr b c) := by
  cases a <;> rfl

/-- Key reads distribute over list append, first list first. -/
theorem lookupKey_append (l1 l2 : List (JKey × Json)) (k : JKey) :
    lookupKey (l1 ++ l2) k = optOr (lookupKey l1 k) (lookupKey l2 k) := by
  induction l1 with
  | nil => rfl
  | cons kv rest ih =>
    rcases kv with ⟨k1, v1⟩
    by_cases h : k1 = k <;> simp [lookupKey, h, ih, optOr]

/-- A key absent from every entry reads as `none`. -/
theorem lookupKey_eq_none (l : List (JKey × Json)) (k : JKey)
    (h : ∀ e ∈ l, e.1 ≠ k) : lookupKey l k = none := by
  induction l with
  | nil => rfl
  | cons kv rest ih =>
    have hk : kv.1 ≠ k := h kv (List.mem_cons_self _ _)
    rcases kv with ⟨k1, v1⟩
    simp only [lookupKey, if_neg hk]
    exact ih fun e he => h e (List.mem_cons_of_mem _ he)

/-- Replaying writes over an initial dict: the final read of a key is
its LAST write (first in the reversed write list), falling back to the
initial dict. -/
theorem foldl_setItem_lookup (es : List (JKey × Json)) :
    ∀ (out : List (JKey × Json)) (k : JKey),
      lookupKey (es.foldl (fun o kv => pySetItem o kv.1 kv.2) out) k
        = optOr (lookupKey es.reverse k) (lookupKey out k) := by
  induction es with
  | nil => intro out k; rfl
  | cons e es ih =>
    intro out k
    rcases e with ⟨k1, v1⟩
    simp only [List.foldl_cons]
    rw [ih, pySetItem_lookup]
    rw [List.reverse_cons, lookupKey_append, optOr_assoc]
    congr 1
    simp only [lookupKey]
    by_cases h : k = k1
    · subst h; simp [optOr]
    · rw [if_neg h, if_neg (Ne.symm h)]
      rfl

/-- Reading a key out of a freshly-built Python dict returns the value
of the LAST write to that key. -/
theorem pyDict_lookup (es : List (JKey × Json)) (k : JKey) :
    lookupKey (pyDict es) k = lookupKey es.reverse k := by
  unfold pyDict
  rw [foldl_setItem_lookup]
  exact optOr_none_right _

/-- Each write goes to the converted key of its input entry. -/
theorem convertEntry_fst (P : List String) (e : JKey × Json) :
    (convertEntry P e).1 = convKey e.1 := by
  rcases e with ⟨k, v⟩
  cases k with
  | str key =>
    simp only [convertEntry, convKey]
    split <;> rfl
  | nonstr n => rfl

/-- Core characterization: for an input entry with no LATER sibling
whose converted key collides with its own, the output dict read at the
entry's converted key is exactly its converted write. -/
theorem lookup_converted (P : List String) (l1 l2 : List (JKey × Json))
    (k : JKey) (v : Json)
    (hno : ∀ e ∈ l2, convKey e.1 ≠ convKey k) :
    lookupKey (pyDict (convertMembers P (l1 ++ (k, v) :: l2))) (convKey k)
      = some (convertEntry P (k, v)).2 := by
  rw [convertMembers_eq_map, pyDict_lookup, List.map_append, List.map_cons,
      List.reverse_append, List.reverse_cons, lookupKey_append, lookupKey_append]
  have h2 : lookupKey ((l2.map (convertEntry P)).reverse) (convKey k) = none := by
    apply lookupKey_eq_none
    intro e he
    rw [List.mem_reverse] at he
    rcases List.mem_map.mp he with ⟨e0, he0, rfl⟩
    rw [convertEntry_fst]
    exact hno e0 he0
  have h3 : lookupKey [convertEntry P (k, v)] (convKey k)
      = some (convertEntry P (k, v)).2 := by
    rcases hce : convertEntry P (k, v) with ⟨ck, cv⟩
    have hfst : ck = convKey k := by
      have h4 := convertEntry_fst P (k, v)
      rw [hce] at h4
      exact h4
    simp [lookupKey, hfst]
  rw [h2, h3]
  rfl

/-! ## Claim C1 (corrected) -/

/-- The dict of the C1 counterexample: a preserved free-form container
followed by a sibling whose key is already the camel form — both keys
are distinct, as in a real Python dict, yet they convert to the same
output key. -/
def c1_collision_input : List (JKey × Json) :=
  [(JKey.str "user_or_llm_comments",
      Json.obj [(JKey.str "profile_summary", Json.str "x")]),
   (JKey.str "userOrLlmComments", Json.num 5)]

/-- C1 counterexample: at
`{"user_or_llm_comments": {"profile_summary": "x"}, "userOrLlmComments": 5}`
with preserve set `{"user_or_llm_comments"}`, the later sibling's write
to the same camel key `userOrLlmComments` OVERWRITES the preserved
entry: the output value at that key is `5`, not the verbatim dict the
claim promises for every preserved entry. -/
theorem preserved_value_clobbered_on_collision :
    convert_keys_snake_to_camel ["user_or_llm_comments"] (Json.obj c1_collision_input)
      = Json.obj [(JKey.str "userOrLlmComments", Json.num 5)] ∧
    lookupKey [(JKey.str "userOrLlmComments", Json.num 5)]
        (JKey.str "userOrLlmComments") = some (Json.num 5) ∧
    Json.num 5 ≠ Json.obj [(JKey.str "profile_summary", Json.str "x")] :=
  ⟨rfl, rfl, fun h => Json.noConfusion h⟩

/-- C1 amended: for a dict entry with a string key, PROVIDED no later
sibling entry's key converts to the same camel key (otherwise Python's
dict write overwrites it), the output dict read at the converted key is:
the entry's value copied verbatim — all nested keys, at every depth,
unchanged — when the original or converted key is in the preserve set
and the value is a dict; and the recursively converted value otherwise,
also when the value is a list or primitive.  Every entry can play this
role, so non-colliding siblings are converted recursively at their own
converted keys. -/
theorem convert_keys_preserves_exempt_containers :
    ∀ (P : List String) (l1 l2 : List (JKey × Json)) (key : String) (v : Json),
      (∀ e ∈ l2, convKey e.1 ≠ JKey.str (snake_to_camel key)) →
      ∃ l, convert_keys_snake_to_camel P
          (Json.obj (l1 ++ (JKey.str key, v) :: l2)) = Json.obj l ∧
        lookupKey l (JKey.str (snake_to_camel key)) =
          some (if (key ∈ P ∨ snake_to_camel key ∈ P) ∧ v.isObj then v
                else convert_keys_snake_to_camel P v) := by
  intro P l1 l2 key v hno
  refine ⟨pyDict (convertMembers P (l1 ++ (JKey.str key, v) :: l2)),
    by simp [convert_keys_snake_to_camel], ?_⟩
  have h := lookup_converted P l1 l2 (JKey.str key) v hno
  have hck : convKey (JKey.str key) = JKey.str (snake_to_camel key) := rfl
  rw [hck] at h
  rw [h]
  by_cases hc : (key ∈ P ∨ snake_to_camel key ∈ P) ∧ v.isObj = true <;>
    simp [convertEntry, hc]

/-- Witness for the amended C1 theorem at the specification's worked
example (no colliding sibling): the preserved entry keeps its inner
`profile_summary` key, and the sibling is converted. -/
theorem convert_keys_preserves_exempt_containers_witness :
    (∀ e ∈ [(JKey.str "other_key", Json.obj [(JKey.str "inner_key", Json.num 1)])],
      convKey e.1 ≠ JKey.str (snake_to_camel "user_or_llm_comments")) ∧
    (∃ l, convert_keys_snake_to_camel ["user_or_llm_comments"]
        (Json.obj ([] ++ (JKey.str "user_or_llm_comments",
            Json.obj [(JKey.str "profile_summary", Json.str "x")]) ::
          [(JKey.str "other_key", Json.obj [(JKey.str "inner_key", Json.num 1)])]))
        = Json.obj l ∧
      lookupKey l (JKey.str (snake_to_camel "user_or_llm_comments")) =
        some (if ("user_or_llm_comments" ∈ ["user_or_llm_comments"] ∨
              snake_to_camel "user_or_llm_comments" ∈ ["user_or_llm_comments"]) ∧
              (Json.obj [(JKey.str "profile_summary", Json.str "x")]).isObj then
            Json.obj [(JKey.str "profile_summary", Json.str "x")]
          else convert_keys_snake_to_camel ["user_or_llm_comments"]
            (Json.obj [(JKey.str "profile_summary", Json.str "x")]))) ∧
    convert_keys_snake_to_camel ["user_or_llm_comments"]
        (Json.obj [(JKey.str "user_or_llm_comments",
            Json.obj [(JKey.str "profile_summary", Json.str "x")]),
          (JKey.str "other_key", Json.obj [(JKey.str "inner_key", Json.num 1)])]) =
      Json.obj
        [(JKey.str "userOrLlmComments",
            Json.obj [(JKey.str "profile_summary", Json.str "x")]),
         (JKey.str "otherKey", Json.obj [(JKey.str "innerKey", Json.num 1)])] :=
  ⟨by decide,
   convert_keys_preserves_exempt_containers ["user_or_llm_comments"] []
     [(JKey.str "other_key", Json.obj [(JKey.str "inner_key", Json.num 1)])]
     "user_or_llm_comments"
     (Json.obj [(JKey.str "profile_summary", Json.str "x")]) (by decide),
   rfl⟩

/-! ## Claim C9 -/

/-- C9: in a dict (distinct keys, as every Python dict has), an entry
whose key is not a string is kept with its key and its value both
exactly as received — the value is not recursed into, so nested keys
beneath a non-string key are never converted.  (String siblings may
still collide after conversion and shrink the dict; the non-string
entry is unaffected because conversion maps string keys to string keys
and leaves non-string keys alone.) -/
theorem convert_keys_nonstring_key_verbatim :
    ∀ (P : List String) (kvs : List (JKey × Json)) (n : Int) (v : Json),
      (kvs.map Prod.fst).Nodup → (JKey.nonstr n, v) ∈ kvs →
      ∃ l, convert_keys_snake_to_camel P (Json.obj kvs) = Json.obj l ∧
        lookupKey l (JKey.nonstr n) = some v := by
  intro P kvs n v hnd hmem
  rcases List.append_of_mem hmem with ⟨l1, l2, rfl⟩
  refine ⟨pyDict (convertMembers P (l1 ++ (JKey.nonstr n, v) :: l2)),
    by simp [convert_keys_snake_to_camel], ?_⟩
  have hno : ∀ e ∈ l2, convKey e.1 ≠ convKey (JKey.nonstr n) := by
    intro e he hconv
    have hkey : e.1 = JKey.nonstr n := by
      rcases e with ⟨k, w⟩
      cases k with
      | str s => exact absurd hconv (by simp [convKey])
      | nonstr m => simpa [convKey] using hconv
    have hnotin : JKey.nonstr n ∉ l2.map Prod.fst := by
      have hsub : (JKey.nonstr n :: l2.map Prod.fst).Nodup := by
        have hsplit : (l1 ++ (JKey.nonstr n, v) :: l2).map Prod.fst
            = l1.map Prod.fst ++ JKey.nonstr n :: l2.map Prod.fst := by
          simp
        rw [hsplit] at hnd
        exact hnd.sublist (List.sublist_append_right _ _)
      exact (List.nodup_cons.mp hsub).1
    exact hnotin (hkey ▸ List.mem_map_of_mem Prod.fst he)
  have h := lookup_converted P l1 l2 (JKey.nonstr n) v hno
  have hck : convKey (JKey.nonstr n) = JKey.nonstr n := rfl
  rw [hck] at h
  rw [h]
  simp [convertEntry]

/-- The input dict of the C9 witness: an integer-keyed entry with a
snake_case inner key, between two string siblings that collide after
conversion (so the output dict really shrinks). -/
def c9_input : List (JKey × Json) :=
  [(JKey.str "a_b", Json.num 0),
   (JKey.nonstr 7, Json.obj [(JKey.str "a_b", Json.num 1)]),
   (JKey.str "aB", Json.num 2)]

/-- Witness for C9: even while the colliding string siblings merge, the
integer-keyed entry survives untouched, its nested `a_b` key
unconverted. -/
theorem convert_keys_nonstring_key_verbatim_witness :
    ((c9_input.map Prod.fst).Nodup) ∧
    ((JKey.nonstr 7, Json.obj [(JKey.str "a_b", Json.num 1)]) ∈ c9_input) ∧
    (∃ l, convert_keys_snake_to_camel ["p"] (Json.obj c9_input) = Json.obj l ∧
      lookupKey l (JKey.nonstr 7) = some (Json.obj [(JKey.str "a_b", Json.num 1)])) :=
  ⟨by decide,
   List.mem_cons_of_mem _ (List.mem_cons_self _ _),
   convert_keys_nonstring_key_verbatim ["p"] c9_input 7
     (Json.obj [(JKey.str "a_b", Json.num 1)]) (by decide)
     (List.mem_cons_of_mem _ (List.mem_cons_self _ _))⟩

/-! ## Supporting lemmas: normalization pipelines -/

/-- The validator string branch over a list of plain strings. -/
theorem coerce_role_strs (l : List String) :
    coerce_role_required_skills (l.map UpItem.str) = l.filterMap stripKeep := by
  unfold coerce_role_required_skills
  rw [List.filterMap_map]
  rfl

/-- The job-skills analogue of `coerce_role_strs`. -/
theorem coerce_job_strs (l : List String) :
    coerce_job_required_skills (l.map UpItem.str) = l.filterMap stripKeep := by
  unfold coerce_job_required_skills
  rw [List.filterMap_map]
  rfl

/-- The responsibilities analogue of `coerce_role_strs`. -/
theorem coerce_resp_strs (l : List String) :
    coerce_job_responsibilities (l.map UpItem.str) = l.filterMap stripKeep := by
  unfold coerce_job_responsibilities
  rw [List.filterMap_map]
  rfl

/-- A kept stripped entry is never the empty string. -/
theorem stripKeep_ne {s t : String} (h : stripKeep s = some t) : t ≠ "" := by
  unfold stripKeep at h
  split at h
  · exact absurd h (by simp)
  · rename_i hne
    intro h2
    apply hne
    cases h
    exact h2

/-- Fusion of the role pipeline into one per-entry pass. -/
theorem role_pipeline_fused (items : List UpItem) :
    role_skills_pipeline items = items.filterMap amended_role_entry := by
  unfold role_skills_pipeline
  rw [coerce_role_strs]
  induction items with
  | nil => rfl
  | cons it rest ih =>
    cases it with
    | str s =>
      simp only [normalize_role_required_skills, List.filterMap_cons, amended_role_entry]
      cases stripKeep s <;> simp [ih]
    | obj o =>
      simp only [normalize_role_required_skills, List.filterMap_cons, amended_role_entry]
      cases stripKeep
        (pyOrD o.skill_name (pyOrD o.name (pyOrD o.skill_id "Unknown Skill"))) <;> simp [ih]
    | other =>
      simp only [normalize_role_required_skills, List.filterMap_cons, amended_role_entry]
      exact ih

/-- Fusion of the job required-skills pipeline into one per-entry pass. -/
theorem job_pipeline_fused (items : List UpItem) :
    job_skills_pipeline items = items.filterMap amended_job_skill_entry := by
  unfold job_skills_pipeline
  rw [coerce_job_strs]
  induction items with
  | nil => rfl
  | cons it rest ih =>
    cases it with
    | str s =>
      simp only [normalize_job_required_skills, List.filterMap_cons, amended_job_skill_entry]
      cases stripKeep s <;> simp [ih]
    | obj o =>
      simp only [normalize_job_required_skills, List.filterMap_cons, amended_job_skill_entry]
      cases hm : pyOrStr o.skill_id (pyOrStr o.skill_code (pyOrStr o.skill_name o.name)) with
      | none => simpa using ih
      | some n =>
        by_cases hn : n = ""
        · simp only [hn, if_pos rfl]
          simpa using ih
        · simp only [if_neg hn, List.filterMap_cons]
          cases stripKeep n <;> simp [ih]
    | other =>
      simp only [normalize_job_required_skills, List.filterMap_cons, amended_job_skill_entry]
      exact ih

/-- Fusion of the job responsibilities pipeline into one per-entry pass. -/
theorem resp_pipeline_fused (items : List UpItem) :
    job_responsibilities_pipeline items = items.filterMap amended_job_resp_entry := by
  unfold job_responsibilities_pipeline
  rw [coerce_resp_strs]
  induction items with
  | nil => rfl
  | cons it rest ih =>
    cases it with
    | str s =>
      simp only [normalize_job_responsibilities, List.filterMap_cons, amended_job_resp_entry]
      cases stripKeep s <;> simp [ih]
    | obj o =>
      simp only [normalize_job_responsibilities, List.filterMap_cons, amended_job_resp_entry]
      cases hm : o.responsibility with
      | none => simpa using ih
      | some t =>
        by_cases ht : t = ""
        · simp only [ht, if_pos rfl]
          simpa using ih
        · simp only [if_neg ht, List.filterMap_cons]
          cases stripKeep t <;> simp [ih]
    | other =>
      simp only [normalize_job_responsibilities, List.filterMap_cons, amended_job_resp_entry]
      exact ih

/-- A kept role-pipeline entry is never blank. -/
theorem amended_role_entry_ne_blank :
    ∀ u t, amended_role_entry u = some t → t ≠ "" := by
  intro u t h
  cases u with
  | str s => exact stripKeep_ne h
  | obj o => exact stripKeep_ne h
  | other => exact absurd h (by simp [amended_role_entry])

/-- A kept job-skills-pipeline entry is never blank. -/
theorem amended_job_skill_entry_ne_blank :
    ∀ u t, amended_job_skill_entry u = some t → t ≠ "" := by
  intro u t h
  cases u with
  | str s => exact stripKeep_ne h
  | obj o =>
    rcases hm : pyOrStr o.skill_id (pyOrStr o.skill_code (pyOrStr o.skill_name o.name))
      with _ | n
    · simp only [amended_job_skill_entry, hm] at h
      exact absurd h (by simp)
    · simp only [amended_job_skill_entry, hm] at h
      split at h
      · exact absurd h (by simp)
      · exact stripKeep_ne h
  | other => exact absurd h (by simp [amended_job_skill_entry])

/-- A kept responsibilities-pipeline entry is never blank. -/
theorem amended_job_resp_entry_ne_blank :
    ∀ u t, amended_job_resp_entry u = some t → t ≠ "" := by
  intro u t h
  cases u with
  | str s => exact stripKeep_ne h
  | obj o =>
    rcases hm : o.responsibility with _ | n
    · simp only [amended_job_resp_entry, hm] at h
      exact absurd h (by simp)
    · simp only [amended_job_resp_entry, hm] at h
      split at h
      · exact absurd h (by simp)
      · exact stripKeep_ne h
  | other => exact absurd h (by simp [amended_job_resp_entry])

/-! ## Claim C3 (corrected) -/

/-- C3 counterexample: a role required-skills object lacking any
name-bearing field is NOT dropped by the normalize-then-validate
pipeline; it is replaced by the literal `"Unknown Skill"`, while the
claim's rule drops it. -/
theorem role_nameless_entry_not_dropped :
    role_skills_pipeline [UpItem.obj {}] = ["Unknown Skill"] ∧
    c3_claimed_role_output [UpItem.obj {}] = [] ∧
    role_skills_pipeline [UpItem.obj {}] ≠ c3_claimed_role_output [UpItem.obj {}] :=
  ⟨rfl, rfl, by decide⟩

/-- C3 amended: each normalize-then-validate pipeline equals a single
ordered per-entry pass (so the output is a flat list of plain strings in
the original relative order, each kept entry stripped and non-empty);
job entries lacking a name are dropped, while role objects lacking a
name fall back to `"Unknown Skill"` instead of being dropped. -/
theorem pipelines_flat_ordered_trimmed :
    (∀ items, role_skills_pipeline items = items.filterMap amended_role_entry) ∧
    (∀ items, job_skills_pipeline items = items.filterMap amended_job_skill_entry) ∧
    (∀ items, job_responsibilities_pipeline items = items.filterMap amended_job_resp_entry) ∧
    (∀ items, ∀ x ∈ role_skills_pipeline items, x ≠ "") ∧
    (∀ items, ∀ x ∈ job_skills_pipeline items, x ≠ "") ∧
    (∀ items, ∀ x ∈ job_responsibilities_pipeline items, x ≠ "") := by
  refine ⟨role_pipeline_fused, job_pipeline_fused, resp_pipeline_fused, ?_, ?_, ?_⟩
  · intro items x hx
    rw [role_pipeline_fused] at hx
    rcases List.mem_filterMap.mp hx with ⟨u, _, hu⟩
    exact amended_role_entry_ne_blank u x hu
  · intro items x hx
    rw [job_pipeline_fused] at hx
    rcases List.mem_filterMap.mp hx with ⟨u, _, hu⟩
    exact amended_job_skill_entry_ne_blank u x hu
  · intro items x hx
    rw [resp_pipeline_fused] at hx
    rcases List.mem_filterMap.mp hx with ⟨u, _, hu⟩
    exact amended_job_resp_entry_ne_blank u x hu

/-- Witness for the amended C3 theorem on a concrete mixed list: a
padded string is trimmed, a named object keeps its name, and the kept
entry produced by the pipeline is non-blank. -/
theorem pipelines_flat_ordered_trimmed_witness :
    ("a" ∈ job_skills_pipeline
        [UpItem.str " a ", UpItem.obj { skill_name := some "X" }]) ∧
    ("a" : String) ≠ "" ∧
    job_skills_pipeline [UpItem.str " a ", UpItem.obj { skill_name := some "X" }] =
      ["a", "X"] :=
  ⟨by decide,
   pipelines_flat_ordered_trimmed.2.2.2.2.1
     [UpItem.str " a ", UpItem.obj { skill_name := some "X" }] "a" (by decide),
   rfl⟩

/-! ## Supporting lemmas: percent-encoding -/

set_option maxRecDepth 4096 in
/-- For every byte value, the `%XX`/verbatim encoding contains no
literal `'#'` (`'#'` itself, byte 35, is not always-safe). -/
theorem quoteByte_no_hash : ∀ b, b < 256 → '#' ∉ quoteByte b := by decide

/-- Every UTF-8 byte is below 256. -/
theorem utf8Bytes_lt_256 (c : Char) : ∀ b ∈ utf8Bytes c, b < 256 := by
  have hval : c.toNat < 0x110000 := by
    rcases c.valid with h | ⟨h1, h2⟩
    · exact Nat.lt_trans h (by norm_num)
    · exact h2
  have hor : ∀ x y : Nat, x < 256 → y < 256 → x ||| y < 256 := by
    intro x y hx hy
    have h8 := Nat.or_lt_two_pow (n := 8) hx hy
    simpa using h8
  have hand : ∀ n : Nat, n &&& 0x3F < 64 := by
    intro n
    have h63 := Nat.and_le_right (n := n) (m := 0x3F)
    omega
  intro b hb
  unfold utf8Bytes at hb
  split at hb
  · rename_i h
    simp at hb
    omega
  · split at hb
    · rename_i h1 h2
      simp at hb
      rcases hb with rfl | rfl
      · apply hor _ _ (by norm_num)
        rw [Nat.shiftRight_eq_div_pow]
        omega
      · exact hor _ _ (by norm_num) (by have := hand c.toNat; omega)
    · split at hb
      · rename_i h1 h2 h3
        simp at hb
        rcases hb with rfl | rfl | rfl
        · apply hor _ _ (by norm_num)
          rw [Nat.shiftRight_eq_div_pow]
          omega
        · exact hor _ _ (by norm_num) (by have := hand (c.toNat >>> 6); omega)
        · exact hor _ _ (by norm_num) (by have := hand c.toNat; omega)
      · rename_i h1 h2 h3
        simp at hb
        rcases hb with rfl | rfl | rfl | rfl
        · apply hor _ _ (by norm_num)
          rw [Nat.shiftRight_eq_div_pow]
          omega
        · exact hor _ _ (by norm_num) (by have := hand (c.toNat >>> 12); omega)
        · exact hor _ _ (by norm_num) (by have := hand (c.toNat >>> 6); omega)
        · exact hor _ _ (by norm_num) (by have := hand c.toNat; omega)

/-- `quote(s, safe="")` never outputs a literal `'#'`. -/
theorem pyQuote_no_hash (s : String) : '#' ∉ (pyQuote s).data := by
  intro hm
  unfold pyQuote at hm
  simp only [List.mem_flatten] at hm
  rcases hm with ⟨q, hq, hcq⟩
  rcases List.mem_map.mp hq with ⟨b, hb, rfl⟩
  rcases List.mem_flatten.mp hb with ⟨bs, hbs, hbmem⟩
  rcases List.mem_map.mp hbs with ⟨c, hc, rfl⟩
  exact quoteByte_no_hash b (utf8Bytes_lt_256 c b hbmem) hcq

/-! ## Claim C4 (corrected) -/

/-- C4 counterexample: for an identifier containing `'#'` alongside
another reserved character, `_encode_id_for_path` percent-encodes BOTH
(the space becomes `%20`), not only the `'#'` as the claim states. -/
theorem encode_id_not_only_hash :
    encode_id_for_path (some "a b#c") = some "a%20b%23c" ∧
    encode_id_for_path (some "a b#c") ≠ some "a b%23c" :=
  ⟨by decide, by decide⟩

/-- C4 amended: an absent identifier passes through absent and its
taxonomy fetch makes no call; an identifier without `'#'` is returned
exactly as given; an identifier containing `'#'` is percent-encoded with
NO safe characters — `'#'` becomes `%23` (byte 35) and every other
non-always-safe character is encoded likewise — and the encoded result
never contains a literal `'#'`. -/
theorem encode_id_for_path_characterization :
    (encode_id_for_path none = none) ∧
    (∀ s : String, '#' ∉ s.data → encode_id_for_path (some s) = some s) ∧
    (∀ s : String, '#' ∈ s.data → encode_id_for_path (some s) = some (pyQuote s)) ∧
    (∀ s : String, '#' ∉ (pyQuote s).data) ∧
    quoteByte 35 = ['%', '2', '3'] ∧
    (∀ tpl, fetch_role_taxonomy none tpl = none) ∧
    (∀ tpl, fetch_jd_taxonomy none tpl = none) := by
  refine ⟨rfl, ?_, ?_, pyQuote_no_hash, by decide, fun tpl => rfl, fun tpl => rfl⟩
  · intro s h
    simp [encode_id_for_path, h]
  · intro s h
    simp [encode_id_for_path, h]

/-- Witness for the amended C4 theorem at `"role#ai_engineer"`. -/
theorem encode_id_for_path_characterization_witness :
    ('#' ∈ ("role#ai_engineer" : String).data) ∧
    encode_id_for_path (some "role#ai_engineer") = some (pyQuote "role#ai_engineer") ∧
    pyQuote "role#ai_engineer" = "role%23ai_engineer" :=
  ⟨by decide,
   encode_id_for_path_characterization.2.2.1 "role#ai_engineer" (by decide),
   by decide⟩

/-! ## Claim C5 (corrected) -/

/-- C5 counterexample: even with the comments feature flag enabled, the
payload posted to the generation service does not contain the
`user_or_llm_comments` field (the Stage-0 model has no such field). -/
theorem payload_lacks_comments_with_flag_enabled :
    "user_or_llm_comments" ∉ call_generation_payload_keys true example_stage0 := by
  decide

/-- C5 amended: the outbound generation payload never contains the
`user_or_llm_comments` field, whatever the flag: when the flag is
disabled the `pop` removes it, and when enabled it is still absent
because `Stage0CVGenerationRequest` declares no such field. -/
theorem payload_never_contains_comments :
    ∀ (flag : Bool) (stage0 : Stage0CVGenerationRequest),
      "user_or_llm_comments" ∉ call_generation_payload_keys flag stage0 := by
  intro flag stage0
  unfold call_generation_payload_keys Stage0CVGenerationRequest.model_dump_keys
  cases flag <;> simp

/-- Witness for the amended C5 theorem with the flag disabled. -/
theorem payload_never_contains_comments_witness :
    "user_or_llm_comments" ∉ call_generation_payload_keys false example_stage0 :=
  payload_never_contains_comments false example_stage0

/-! ## Claim C6 -/

/-- C6: whenever `generate_cv` yields a terminal error outcome — fetch
failure, Stage-0 build failure, generation transport failure, or an
unexpected generation failure — the response echoes the request's
`user_or_llm_comments` and `request_metadata` unchanged. -/
theorem error_responses_echo_comments_and_metadata :
    ∀ (req : GenerateCVRequest) (f : Except String FetchedData)
      (b : FetchedData → Except String Stage0CVGenerationRequest)
      (g : Stage0CVGenerationRequest → GenOutcome),
      (generate_cv req f b g).status = RespStatus.error →
      (generate_cv req f b g).user_or_llm_comments = req.user_or_llm_comments ∧
      (generate_cv req f b g).request_metadata = req.request_metadata := by
  intro req f b g _
  rcases f with e | data
  · exact ⟨rfl, rfl⟩
  · rcases hb : b data with e | stage0
    · simp [generate_cv, hb]
    · rcases hg : g stage0 with r | m | m <;> simp [generate_cv, hb, hg]

/-- Witness for C6: a concrete request whose required fetch fails after
retries yields an error response that echoes comments and metadata. -/
theorem error_responses_echo_comments_and_metadata_witness :
    ((generate_cv example_request (Except.error "fetch failed")
        (fun _ => Except.error "unused") (fun _ => GenOutcome.httpError "unused")).status
      = RespStatus.error) ∧
    ((generate_cv example_request (Except.error "fetch failed")
        (fun _ => Except.error "unused") (fun _ => GenOutcome.httpError "unused")).user_or_llm_comments
      = example_request.user_or_llm_comments ∧
     (generate_cv example_request (Except.error "fetch failed")
        (fun _ => Except.error "unused") (fun _ => GenOutcome.httpError "unused")).request_metadata
      = example_request.request_metadata) :=
  ⟨rfl,
   error_responses_echo_comments_and_metadata example_request (Except.error "fetch failed")
     (fun _ => Except.error "unused") (fun _ => GenOutcome.httpError "unused") rfl⟩

/-! ## Claim C7 -/

/-- C7: education validation fails with the cross-field error exactly
when a graduation date is present and earlier than the start date, and
succeeds — returning the entry unchanged, never corrected — when the
graduation date is absent or not earlier; likewise for an experience
entry's end date. -/
theorem date_validators_raise_never_correct :
    ∀ (e : Education) (x : Experience),
      (∀ g, e.graduation_date = some g → g < e.start_date →
        e.validate_dates = Except.error "graduation_date cannot be earlier than start_date") ∧
      (∀ g, e.graduation_date = some g → ¬ g < e.start_date →
        e.validate_dates = Except.ok e) ∧
      (e.graduation_date = none → e.validate_dates = Except.ok e) ∧
      (∀ d, x.end_date = some d → d < x.start_date →
        x.validate_end_date = Except.error "end_date cannot be earlier than start_date") ∧
      (∀ d, x.end_date = some d → ¬ d < x.start_date →
        x.validate_end_date = Except.ok x) ∧
      (x.end_date = none → x.validate_end_date = Except.ok x) := by
  intro e x
  refine ⟨?_, ?_, ?_, ?_, ?_, ?_⟩
  · intro g hg hlt
    unfold Education.validate_dates
    rw [hg]
    simp [hlt]
  · intro g hg hge
    unfold Education.validate_dates
    rw [hg]
    simp [hge]
  · intro hg
    unfold Education.validate_dates
    rw [hg]
  · intro d hd hlt
    unfold Experience.validate_end_date
    rw [hd]
    simp [hlt]
  · intro d hd hge
    unfold Experience.validate_end_date
    rw [hd]
    simp [hge]
  · intro hd
    unfold Experience.validate_end_date
    rw [hd]

/-- Witness for C7: a graduation date (5) earlier than the start date
(10) makes validation raise the cross-field error, and an experience
end date not earlier than its start validates unchanged. -/
theorem date_validators_raise_never_correct_witness :
    (({ id := "edu-1", degree := "BSc", institution := "U", start_date := 10,
        graduation_date := some 5 } : Education).graduation_date = some 5) ∧
    ((5 : Int) < 10) ∧
    ({ id := "edu-1", degree := "BSc", institution := "U", start_date := 10,
        graduation_date := some 5 } : Education).validate_dates
      = Except.error "graduation_date cannot be earlier than start_date" :=
  ⟨rfl, by decide,
   (date_validators_raise_never_correct
      { id := "edu-1", degree := "BSc", institution := "U", start_date := 10,
        graduation_date := some 5 }
      { id := "exp-1", title := "Dev", company := "ACME", start_date := 0,
        responsibilities := ["ship"] }).1 5 rfl (by decide)⟩

/-! ## Claim C10 -/

/-- C10: an empty-string role or JD identifier short-circuits its
taxonomy fetch exactly as an absent identifier does: no outbound call is
made and the result is absent. -/
theorem empty_id_short_circuits_fetch :
    ∀ tplRole tplJd : String,
      fetch_role_taxonomy (some "") tplRole = none ∧
      fetch_jd_taxonomy (some "") tplJd = none ∧
      fetch_role_taxonomy none tplRole = none ∧
      fetch_jd_taxonomy none tplJd = none := by
  intro tplRole tplJd
  exact ⟨rfl, rfl, rfl, rfl⟩

end CvOrch
